import Mathlib

/-!
Shallow embedding of `google_scholar_paper_scraper.py` (the pagination-and-resume
ingestion pipeline) and verification of the specification's claims about it.

Conventions of the embedding:
* Python strings are Lean `String`s; character-level operations work on `String.data`.
* Python truthiness of a string / list / dict is modelled explicitly
  (`pyStrTruthy`, emptiness checks on lists, equality with the empty record).
* Network and filesystem effects are modelled as explicit inputs
  (`PageData`: what each HTTP fetch would return) and explicit effect logs
  (`ScrapeState.written`, `ScrapeState.pdfFetches`, `ScrapeState.articlesFetched`).
* A Python exception that the code does not catch is an `Except.error`;
  `None` results are `Option.none`.
* The unbounded `while True` pagination loop is given explicit fuel; `none`
  means the loop has not terminated within that fuel (for any fuel: divergence).
-/

namespace GScholar

/-! ## Python string primitives -/

/-- Python whitespace for `str.strip()` (ASCII subset; no input in this
development contains non-ASCII whitespace). -/
def isPySpace (c : Char) : Bool :=
  c == ' ' || c == '\t' || c == '\n' || c == '\r' || c == Char.ofNat 11 || c == Char.ofNat 12

/-- `str.strip()` on a character list: drop whitespace from both ends. -/
def pyStrip (l : List Char) : List Char :=
  ((l.dropWhile isPySpace).reverse.dropWhile isPySpace).reverse

/-- `str.strip()` on a `String`. -/
def pyStripStr (s : String) : String :=
  String.mk (pyStrip s.data)

/-- Python truthiness of a string (`if s:`): true iff non-empty. -/
def pyStrTruthy (s : String) : Bool :=
  !s.data.isEmpty

/-- Decimal value of a digit list (value of a regex `(\d+)` group). -/
def natOfDigits (l : List Char) : Nat :=
  l.foldl (fun acc c => 10 * acc + (c.toNat - 48)) 0

/-- Does `pat` occur at the very start of `l`? (Bool-valued list prefix test.) -/
def matchesAt : List Char → List Char → Bool
  | [], _ => true
  | _ :: _, [] => false
  | p :: ps, c :: cs => p == c && matchesAt ps cs

/-- Python `pat in s` substring test on character lists. -/
def containsSub (pat : List Char) : List Char → Bool
  | [] => pat.isEmpty
  | c :: cs => matchesAt pat (c :: cs) || containsSub pat cs

/-- Python `str.lower()` (ASCII letters, which is all the inputs use). -/
def pyLower (s : String) : List Char :=
  s.data.map Char.toLower

/-! ## `_safe_filename` (source lines 160-163)

```python
def _safe_filename(name: str, default: str = "paper") -> str:
    name = re.sub(r"[^A-Za-z0-9\-\._ ]+", "_", name).strip()
    return name or default
```
-/

/-- Membership in the regex character class `[A-Za-z0-9\-\._ ]`. -/
def isSafeChar (c : Char) : Bool :=
  c.isAlphanum || c == '-' || c == '.' || c == '_' || c == ' '

/-- `re.sub(r"[^A-Za-z0-9\-\._ ]+", "_", name)`: each maximal run of unsafe
characters is replaced by a single `'_'`.  The flag records whether the
previous character belonged to an unsafe run. -/
def subSafeAux : Bool → List Char → List Char
  | _, [] => []
  | prevBad, c :: cs =>
    if isSafeChar c then c :: subSafeAux false cs
    else if prevBad then subSafeAux true cs
    else '_' :: subSafeAux true cs

/-- `_safe_filename`: substitute unsafe runs, strip, default to `"paper"` when
the result is empty (callers never override the default). -/
def safe_filename (name : String) : String :=
  let s := pyStrip (subSafeAux false name.data)
  if s.isEmpty then "paper" else String.mk s

/-! ## Listing paginator `fetch_and_parse` (source lines 148-158)

```python
def fetch_and_parse(author_id, link=None):
    results = []
    pagination = 0
    while True:
        items = _fetch_and_parse(author_id, link, pagination)
        if len(results) > 0 and results[-1] == items[-1]:
            break
        results.extend(items)
        pagination += 100
    return results
```

`_fetch_and_parse` performs one HTTP fetch per offset; it is modelled as an
oracle `pages : Nat → List Stub` from the `cstart` offset to the stubs parsed
from that page. -/

/-- A publication stub as built by `_fetch_and_parse`: `{"title": ..., "url": ...}`. -/
structure Stub where
  title : String
  url : String
deriving DecidableEq, Repr

/-- Outcome of the pagination loop: the returned list, or the `IndexError`
raised by `items[-1]` on an empty page when `results` is non-empty. -/
inductive FetchOutcome
  | ok (stubs : List Stub)
  | indexError
deriving DecidableEq, Repr

/-- The `while True` loop body with explicit fuel.  Python's
`len(results) > 0 and results[-1] == items[-1]` short-circuits, so `items[-1]`
(which raises on an empty page) is only evaluated when `results` is non-empty. -/
def fetchLoop (pages : Nat → List Stub) : Nat → List Stub → Nat → Option FetchOutcome
  | 0, _, _ => none
  | fuel + 1, results, pag =>
    let items := pages pag
    match results.getLast? with
    | none => fetchLoop pages fuel (results ++ items) (pag + 100)
    | some rl =>
      match items.getLast? with
      | none => some .indexError
      | some il =>
        if rl = il then some (.ok results)
        else fetchLoop pages fuel (results ++ items) (pag + 100)

/-- `fetch_and_parse`, starting from the empty accumulator at offset 0. -/
def fetch_and_parse (pages : Nat → List Stub) (fuel : Nat) : Option FetchOutcome :=
  fetchLoop pages fuel [] 0

/-! ## Identity resolver `get_author_id`, link branch (source lines 21-27)

```python
if link:
    parsed = urlparse(link)
    params = parse_qs(parsed.query)
    author_id = params.get("user", [""])[0]
    return author_id
```

`urlparse` keeps the text between the first `'?'` (after stripping the
fragment introduced by the first `'#'`) as the query.  `parse_qs` with its
defaults (`keep_blank_values=False`) splits the query on `'&'`, splits each
pair at its first `'='`, and drops pairs with no `'='` or an empty value.
Percent-decoding and `'+'`-decoding are not modelled; no input in this
development uses those escapes. -/

/-- Python `s.split(sep)` on character lists (always at least one group). -/
def splitOnChar (sep : Char) : List Char → List (List Char)
  | [] => [[]]
  | c :: cs =>
    if c = sep then [] :: splitOnChar sep cs
    else
      match splitOnChar sep cs with
      | [] => [[c]]
      | g :: gs => (c :: g) :: gs

/-- The query component of a URL: after the first `'?'` of the part that
precedes the first `'#'`. -/
def query_of (url : String) : List Char :=
  let beforeFrag := url.data.takeWhile (fun c => c ≠ '#')
  match beforeFrag.dropWhile (fun c => c ≠ '?') with
  | [] => []
  | _ :: rest => rest

/-- `urllib.parse.parse_qsl` with default options: name/value pairs in query
order, dropping pairs without `'='` and pairs with an empty value. -/
def parse_qsl (q : List Char) : List (List Char × List Char) :=
  (splitOnChar '&' q).filterMap fun pair =>
    match pair.dropWhile (fun c => c ≠ '=') with
    | [] => none
    | _ :: v =>
      if v.isEmpty then none
      else some (pair.takeWhile (fun c => c ≠ '='), v)

/-- `get_author_id(author_name, link)` for a truthy `link`:
`parse_qs(urlparse(link).query).get("user", [""])[0]`.  The first `user`
pair's value, or `""` when there is none. -/
def get_author_id_from_link (link : String) : String :=
  match (parse_qsl (query_of link)).find? (fun p => p.1 == "user".data) with
  | some p => String.mk p.2
  | none => ""

/-! ## Metadata extractor `extract_paper_metadata` (source lines 165-208)

A row of the `gsc_oci_table` is modelled by the texts the code reads from it:
the `gsc_oci_field` cell texts, and for each `gsc_oci_value` cell its own
`text_content()` plus the `text_content()` of each of its element children
(`getchildren()`). -/

/-- A `gsc_oci_value` cell: its text content and its element children's texts. -/
structure ValueCell where
  text : String
  children : List String
deriving DecidableEq, Repr

/-- One `gs_scl` row: the `gsc_oci_field` cells and `gsc_oci_value` cells
found under it (the code checks both lists for non-emptiness and uses the
first element of each). -/
structure FieldRow where
  nameCells : List String
  valueCells : List ValueCell
deriving DecidableEq, Repr

/-- The metadata dict: one optional entry per recognized field.  A field being
`some _` means the key is present in the Python dict. -/
structure Metadata where
  authors : Option String := none
  publication_date : Option String := none
  journal : Option String := none
  volume : Option String := none
  issue : Option String := none
  pages : Option String := none
  publisher : Option String := none
  description : Option String := none
  total_citations_detailed : Option Nat := none
deriving DecidableEq, Repr

/-- The empty metadata dict `{}` (falsy in Python). -/
def emptyMetadata : Metadata := {}

/-- Uncaught Python exceptions that the modelled code can raise. -/
inductive PyError
  | indexError
deriving DecidableEq, Repr

/-- The literal characters of the regex `r'Cited by (\d+)'` up to the group. -/
def citedByPattern : List Char := "Cited by ".data

/-- `re.search(r'Cited by (\d+)', s)`: scan left to right for the first
position where the literal pattern is followed by at least one digit; the
group value is the maximal digit run there. -/
def citedBySearchAux : List Char → Option Nat
  | [] => none
  | c :: cs =>
    if matchesAt citedByPattern (c :: cs) then
      let ds := ((c :: cs).drop citedByPattern.length).takeWhile Char.isDigit
      if ds.isEmpty then citedBySearchAux cs else some (natOfDigits ds)
    else citedBySearchAux cs

/-- `'\xa0'` → `' '` replacement applied to the Description field. -/
def replaceNbsp (s : String) : String :=
  String.mk (s.data.map fun c => if c = Char.ofNat 160 then ' ' else c)

/-- Process one `gs_scl` row exactly as the loop body does.  For
`Total citations` the code indexes `getchildren()[0]`, which raises
`IndexError` when the value cell has no element children; the regex value
defaults to 0 when the pattern does not match. -/
def processRow (m : Metadata) (row : FieldRow) : Except PyError Metadata :=
  match row.nameCells, row.valueCells with
  | nameEl :: _, valueEl :: _ =>
    let field_name := pyStripStr nameEl
    if field_name = "Total citations" then
      match valueEl.children with
      | [] => .error .indexError
      | child :: _ =>
        .ok { m with total_citations_detailed := some ((citedBySearchAux child.data).getD 0) }
    else
      let field_value := pyStripStr valueEl.text
      if field_name = "Authors" then .ok { m with authors := some field_value }
      else if field_name = "Publication date" then .ok { m with publication_date := some field_value }
      else if field_name = "Journal" then .ok { m with journal := some field_value }
      else if field_name = "Volume" then .ok { m with volume := some field_value }
      else if field_name = "Issue" then .ok { m with issue := some field_value }
      else if field_name = "Pages" then .ok { m with pages := some field_value }
      else if field_name = "Publisher" then .ok { m with publisher := some field_value }
      else if field_name = "Description" then .ok { m with description := some (replaceNbsp field_value) }
      else .ok m
  | _, _ => .ok m

/-- Fold `processRow` over the rows, propagating an uncaught exception. -/
def extractRows (m : Metadata) : List FieldRow → Except PyError Metadata
  | [] => .ok m
  | row :: rest =>
    match processRow m row with
    | .error e => .error e
    | .ok m2 => extractRows m2 rest

/-- `extract_paper_metadata(doc)` over the parsed rows of the document. -/
def extract_paper_metadata (rows : List FieldRow) : Except PyError Metadata :=
  extractRows emptyMetadata rows

/-! ## PDF link selection in `download_pdf_from_scholar_article`
(source lines 241-264)

```python
pdf_anchors = doc.xpath('...//div[@class="gsc_oci_title_ggi"]//a')
if not pdf_anchors:
    return None, metadata
pdf_href = None
if len(pdf_anchors) > 1:
    for anchor in pdf_anchors:
        if 'pdf' in anchor.text_content().lower():
            pdf_href = anchor.get("href")
            break
    if not pdf_href:
        pdf_href = pdf_anchors[-1].get("href")
else:
    pdf_href = pdf_anchors[0].get("href")
if not pdf_href:
    return None, metadata
```
-/

/-- An `<a>` element in the title wrapper: its visible text and its `href`
attribute (`None` when the attribute is absent). -/
structure Anchor where
  text : String
  href : Option String
deriving DecidableEq, Repr

/-- `'pdf' in anchor.text_content().lower()`. -/
def anchorMatchesPdf (a : Anchor) : Bool :=
  containsSub "pdf".data (pyLower a.text)

/-- The anchor at which the `for`/`break` loop stops: the first whose text
contains `"pdf"` case-insensitively. -/
def firstPdfAnchor : List Anchor → Option Anchor
  | [] => none
  | a :: rest => if anchorMatchesPdf a then some a else firstPdfAnchor rest

/-- `pdf_anchors[-1].get("href")`. -/
def lastAnchorHref : List Anchor → Option String
  | [] => none
  | [a] => a.href
  | _ :: b :: rest => lastAnchorHref (b :: rest)

/-- Python truthiness of `pdf_href` (`None` and `""` are falsy). -/
def optTruthy : Option String → Bool
  | none => false
  | some s => pyStrTruthy s

/-- Where the selection ends up after the final `if not pdf_href` guard. -/
inductive SelectResult
  | noAnchors
  | noValidHref
  | chosen (href : String)
deriving DecidableEq, Repr

/-- Apply the final `if not pdf_href: return None, metadata` guard. -/
def hrefResult (h : Option String) : SelectResult :=
  match h with
  | none => .noValidHref
  | some s => if pyStrTruthy s then .chosen s else .noValidHref

/-- The complete candidate-selection logic of the source. -/
def selectPdf : List Anchor → SelectResult
  | [] => .noAnchors
  | [a] => hrefResult a.href
  | a :: b :: rest =>
    let anchors := a :: b :: rest
    let fromLoop := (firstPdfAnchor anchors).bind Anchor.href
    hrefResult (if optTruthy fromLoop then fromLoop else lastAnchorHref anchors)

/-! ## `download_pdf_from_scholar_article` (source lines 210-299)

The network and filesystem are modelled by `PageData`: what the article-page
fetch, the PDF fetch, and the file write would do for this publication. -/

/-- Outcome of the `requests.get(pdf_url, ...)` call. -/
inductive PdfFetch
  | ok
  | badStatus
  | netError
deriving DecidableEq, Repr

/-- Everything the outside world answers for one publication. -/
structure PageData where
  fetchOk : Bool
  rows : List FieldRow
  anchors : List Anchor
  pdfFetch : PdfFetch
  writeOk : Bool
deriving DecidableEq, Repr

/-- What one `download_pdf_from_scholar_article` call returns (`result`,
`metadata`) plus its effect log: whether a PDF GET was issued and which files
were written.  `result` is `abspath(filename)` modelled as the bare filename,
or the `"downloaded_with_selenium"` sentinel. -/
structure DlReturn where
  result : Option String
  metadata : Option Metadata
  pdfRequested : Bool
  written : List String
deriving DecidableEq, Repr

/-- `f"{paper_title}({year})" if year else paper_title` — note `year = 0` is
falsy in Python. -/
def mkBaseName (title : String) (year : Option Nat) : String :=
  match year with
  | some n => if n ≠ 0 then title ++ "(" ++ Nat.repr n ++ ")" else title
  | none => title

/-- `download_pdf_from_scholar_article(article_url, paper_title, year,
use_selenium)`.  The article-page `try` block covers only the GET and the
parse, so an `IndexError` raised by metadata extraction propagates.  On a
non-200 PDF response with selenium enabled the code reports the sentinel
without confirming the file (fire and forget); a request exception yields
`(None, metadata)` regardless of selenium. -/
def download_pdf (pd : PageData) (paper_title : String) (year : Option Nat)
    (use_selenium : Bool) : Except PyError DlReturn :=
  if !pd.fetchOk then .ok ⟨none, none, false, []⟩
  else
    match extract_paper_metadata pd.rows with
    | .error e => .error e
    | .ok md =>
      match selectPdf pd.anchors with
      | .noAnchors => .ok ⟨none, some md, false, []⟩
      | .noValidHref => .ok ⟨none, some md, false, []⟩
      | .chosen _href =>
        match pd.pdfFetch with
        | .netError => .ok ⟨none, some md, true, []⟩
        | .badStatus =>
          if use_selenium then .ok ⟨some "downloaded_with_selenium", some md, true, []⟩
          else .ok ⟨none, some md, true, []⟩
        | .ok =>
          let filename := safe_filename (mkBaseName paper_title year) ++ ".pdf"
          if pd.writeOk then .ok ⟨some filename, some md, true, [filename]⟩
          else .ok ⟨none, some md, true, []⟩

/-! ## `scrape_author_papers` per-item loop (source lines 352-425) -/

/-- `re.search(r'(\d{4})', s)`: the leftmost run of four consecutive digits. -/
def fourDigits : List Char → Option Nat
  | a :: b :: c :: d :: _ =>
    if a.isDigit && b.isDigit && c.isDigit && d.isDigit then
      some (natOfDigits [a, b, c, d])
    else none
  | _ => none

/-- Scan for the first position where four consecutive digits start. -/
def findYear : List Char → Option Nat
  | [] => none
  | c :: cs =>
    match fourDigits (c :: cs) with
    | some n => some n
    | none => findYear cs

/-- One publication as the orchestrator sees it: the stub from the listing
page plus what the outside world would answer for its detail page. -/
structure Item where
  title : String
  url : String
  page : PageData
deriving DecidableEq, Repr

/-- One row of `papers_metadata` as assembled at source lines 399-412. -/
structure PaperRecord where
  title : String
  authors : String
  publication_date : String
  journal : String
  volume : String
  issue : String
  pages : String
  publisher : String
  description : String
  total_citations : Nat
  scholar_url : String
  pdf_filename : String
  download_status : String
deriving DecidableEq, Repr

/-- The in-memory state of one author's run, with effect logs. -/
structure ScrapeState where
  downloadedPapers : List String
  papersMetadata : List PaperRecord
  downloadedCount : Nat
  skippedCount : Nat
  written : List String
  pdfFetches : Nat
  articlesFetched : Nat
deriving DecidableEq, Repr

/-- State at the start of the loop: `downloaded_papers` is seeded from
`glob.glob('*.pdf')`, everything else is zero/empty. -/
def initState (existingPdfs : List String) : ScrapeState :=
  ⟨existingPdfs, [], 0, 0, [], 0, 0⟩

/-- The loop body for one item (source lines 373-425).  Mirrors the source:
the download (with `year=None` — the call at line 379 passes `None`) happens
BEFORE the duplicate check; `if not metadata: continue` skips both a failed
fetch (`None`) and an empty dict; the year for the recorded filename comes
from the metadata afterwards. -/
def processItemWith (st : ScrapeState) (item : Item) (dl : DlReturn) : ScrapeState :=
    let st1 : ScrapeState :=
      { st with
        written := st.written ++ dl.written
        pdfFetches := st.pdfFetches + (if dl.pdfRequested then 1 else 0)
        articlesFetched := st.articlesFetched + 1 }
    match dl.metadata with
    | none => st1
    | some md =>
      if md = emptyMetadata then st1
      else
        let year : Option Nat :=
          match md.publication_date with
          | some d => if pyStrTruthy d then findYear d.data else none
          | none => none
        let filename := safe_filename (mkBaseName item.title year) ++ ".pdf"
        let record : PaperRecord :=
          { title := item.title
            authors := md.authors.getD ""
            publication_date := md.publication_date.getD ""
            journal := md.journal.getD ""
            volume := md.volume.getD ""
            issue := md.issue.getD ""
            pages := md.pages.getD ""
            publisher := md.publisher.getD ""
            description := md.description.getD ""
            total_citations := md.total_citations_detailed.getD 0
            scholar_url := item.url
            pdf_filename := filename
            download_status := "" }
        if filename ∈ st1.downloadedPapers then
          { st1 with
            skippedCount := st1.skippedCount + 1
            papersMetadata := st1.papersMetadata ++
              [{ record with download_status := "already_exists" }] }
        else if optTruthy dl.result then
          { st1 with
            downloadedCount := st1.downloadedCount + 1
            downloadedPapers := st1.downloadedPapers ++ [filename]
            papersMetadata := st1.papersMetadata ++
              [{ record with download_status := "downloaded" }] }
        else
          { st1 with
            papersMetadata := st1.papersMetadata ++
              [{ record with download_status := "failed" }] }

/-- The loop body as an `Except`: an uncaught exception from the download
call propagates, otherwise the state is updated by `processItemWith`. -/
def processItem (use_selenium : Bool) (st : ScrapeState) (item : Item) :
    Except PyError ScrapeState :=
  match download_pdf item.page item.title none use_selenium with
  | .error e => .error e
  | .ok dl => .ok (processItemWith st item dl)

/-- The `for i, item in enumerate(items)` loop with the `max_papers` guard at
its top (source lines 369-371). -/
def scrapeLoop (use_selenium : Bool) (max_papers : Int) :
    ScrapeState → List Item → Except PyError ScrapeState
  | st, [] => .ok st
  | st, item :: rest =>
    if max_papers > 0 ∧ (st.downloadedCount : Int) ≥ max_papers then .ok st
    else
      match processItem use_selenium st item with
      | .error e => .error e
      | .ok st2 => scrapeLoop use_selenium max_papers st2 rest

/-- `scrape_author_papers` from the point where the items and the pre-run
folder listing are known. -/
def scrape_author_papers (existingPdfs : List String) (items : List Item)
    (use_selenium : Bool) (max_papers : Int) : Except PyError ScrapeState :=
  scrapeLoop use_selenium max_papers (initState existingPdfs) items

/-! ## Concrete fixtures used by the claim theorems -/

deriving instance DecidableEq for Except

/-- A publication "Foo", dated 2020 on its detail page, with one working PDF
link, a successful PDF fetch and a successful file write. -/
def itemFoo : Item :=
  { title := "Foo", url := "detail"
    page := { fetchOk := true
              rows := [⟨["Publication date"], [⟨"2020", []⟩]⟩]
              anchors := [⟨"PDF", some "http://x/p.pdf"⟩]
              pdfFetch := .ok
              writeOk := true } }

/-- The row the pipeline records for `itemFoo` (note `pdf_filename` carries the
year while the file the downloader writes is `Foo.pdf`). -/
def recordFoo (status : String) : PaperRecord :=
  { title := "Foo", authors := "", publication_date := "2020", journal := ""
    volume := "", issue := "", pages := "", publisher := "", description := ""
    total_citations := 0, scholar_url := "detail"
    pdf_filename := "Foo_2020_.pdf", download_status := status }

/-- A publication whose detail page fetches fine but whose metadata table has
no recognized rows: extraction returns the empty dict. -/
def itemEmptyMeta : Item :=
  { title := "Bar", url := "d2"
    page := { fetchOk := true, rows := [], anchors := [], pdfFetch := .ok, writeOk := true } }

/-- A publication whose detail page yields exactly one recognized field. -/
def itemAuthors : Item :=
  { title := "P", url := "d3"
    page := { fetchOk := true, rows := [⟨["Authors"], [⟨"A, B", []⟩]⟩]
              anchors := [], pdfFetch := .ok, writeOk := true } }

/-- The metadata extracted from `itemAuthors`. -/
def mdAuthors : Metadata := { authors := some "A, B" }

/-- Final state of a run over `[itemFoo]` from an empty folder. -/
def stFooDl : ScrapeState :=
  { downloadedPapers := ["Foo_2020_.pdf"]
    papersMetadata := [recordFoo "downloaded"]
    downloadedCount := 1, skippedCount := 0
    written := ["Foo.pdf"], pdfFetches := 1, articlesFetched := 1 }

/-- Page oracle with 100 stubs at offset 0 and a repeated-tail page after. -/
def pagesRepeatTail : Nat → List Stub :=
  fun pag => if pag = 0 then List.replicate 100 ⟨"t", "u"⟩ else [⟨"t", "u"⟩]

/-- Number of records with disposition `downloaded` in a metadata table. -/
def dcount (l : List PaperRecord) : Nat :=
  l.countP (fun r => r.download_status == "downloaded")

/-! ## Helper lemmas -/

theorem takeWhile_append_all {p : Char → Bool} {A B : List Char}
    (h : ∀ c ∈ A, p c = true) :
    (A ++ B).takeWhile p = A ++ B.takeWhile p := by
  induction A with
  | nil => simp
  | cons a as ih =>
    simp only [List.cons_append, List.takeWhile_cons, h a (by simp)]
    simp [ih fun c hc => h c (by simp [hc])]

theorem dropWhile_append_all {p : Char → Bool} {A B : List Char}
    (h : ∀ c ∈ A, p c = true) :
    (A ++ B).dropWhile p = B.dropWhile p := by
  induction A with
  | nil => simp
  | cons a as ih =>
    simp only [List.cons_append, List.dropWhile_cons, h a (by simp)]
    simp [ih fun c hc => h c (by simp [hc])]

theorem splitOnChar_no_sep {sep : Char} {l : List Char} (h : ∀ c ∈ l, c ≠ sep) :
    splitOnChar sep l = [l] := by
  induction l with
  | nil => rfl
  | cons c cs ih =>
    have hc : ¬ (c = sep) := h c (by simp)
    rw [splitOnChar, if_neg hc, ih fun d hd => h d (by simp [hd])]

theorem query_of_user_link (u : String) (hch : ∀ c ∈ u.data, c ≠ '#') :
    query_of ("https://scholar.google.com/citations?user=" ++ u) = "user=".data ++ u.data := by
  have hsplit : "https://scholar.google.com/citations?user=".data
      = "https://scholar.google.com/citations".data ++ '?' :: "user=".data := by decide
  have hdata : ("https://scholar.google.com/citations?user=" ++ u).data
      = "https://scholar.google.com/citations".data ++ '?' :: ("user=".data ++ u.data) := by
    rw [String.data_append, hsplit, List.append_assoc]
    rfl
  rw [query_of, hdata]
  have htw : (("https://scholar.google.com/citations".data ++
        '?' :: ("user=".data ++ u.data)).takeWhile (fun c => c ≠ '#'))
      = "https://scholar.google.com/citations".data ++ '?' :: ("user=".data ++ u.data) := by
    rw [takeWhile_append_all (by decide), List.takeWhile_cons]
    simp only [decide_eq_true_eq]
    rw [if_pos (by decide)]
    rw [takeWhile_append_all (by decide)]
    rw [List.takeWhile_eq_self_iff.mpr (by intro x hx; simpa using hch x hx)]
  rw [htw]
  rw [dropWhile_append_all (by decide), List.dropWhile_cons]
  simp

theorem parse_qsl_user (u : String) (hne : u.data ≠ [])
    (hch : ∀ c ∈ u.data, c ≠ '&' ∧ c ≠ '=') :
    parse_qsl ("user=".data ++ u.data) = [("user".data, u.data)] := by
  have hsp : splitOnChar '&' ("user=".data ++ u.data) = [("user=".data ++ u.data)] := by
    apply splitOnChar_no_sep
    intro c hc
    rcases List.mem_append.mp hc with h | h
    · exact (by decide : ∀ c ∈ "user=".data, c ≠ '&') c h
    · exact (hch c h).1
  rw [parse_qsl, hsp]
  simp only [List.filterMap]
  have hu : "user=".data ++ u.data = "user".data ++ '=' :: u.data := by
    rw [show "user=".data = "user".data ++ ['='] from by decide, List.append_assoc]; rfl
  rw [hu]
  rw [dropWhile_append_all (by decide), List.dropWhile_cons]
  rw [if_neg (by simp)]
  rw [takeWhile_append_all (by decide), List.takeWhile_cons]
  rw [if_neg (by simp)]
  simp [List.isEmpty_iff, hne]

theorem fetchLoop_succ (pages : Nat → List Stub) (fuel : Nat) (results : List Stub)
    (pag : Nat) :
    fetchLoop pages (fuel + 1) results pag =
      match results.getLast? with
      | none => fetchLoop pages fuel (results ++ pages pag) (pag + 100)
      | some rl =>
        match (pages pag).getLast? with
        | none => some .indexError
        | some il =>
          if rl = il then some (.ok results)
          else fetchLoop pages fuel (results ++ pages pag) (pag + 100) := rfl

theorem matchesAt_append_self : ∀ (A B : List Char), matchesAt A (A ++ B) = true := by
  intro A
  induction A with
  | nil => intro B; rfl
  | cons a as ih => intro B; simp [matchesAt, ih]

theorem citedBySearchAux_cons (c : Char) (cs : List Char) :
    citedBySearchAux (c :: cs) =
      if matchesAt citedByPattern (c :: cs) then
        (if (((c :: cs).drop citedByPattern.length).takeWhile Char.isDigit).isEmpty
         then citedBySearchAux cs
         else some (natOfDigits (((c :: cs).drop citedByPattern.length).takeWhile Char.isDigit)))
      else citedBySearchAux cs := rfl

theorem citedBy_found (ds : List Char) (hne : ds ≠ []) (hdig : ∀ c ∈ ds, c.isDigit = true) :
    citedBySearchAux (citedByPattern ++ ds) = some (natOfDigits ds) := by
  have hshape : citedByPattern ++ ds = 'C' :: ("ited by ".data ++ ds) := rfl
  rw [hshape, citedBySearchAux_cons, ← hshape]
  rw [matchesAt_append_self, List.drop_left,
    List.takeWhile_eq_self_iff.mpr (by exact_mod_cast hdig)]
  have hemp : ds.isEmpty = false := by
    cases ds with
    | nil => exact absurd rfl hne
    | cons d ds2 => rfl
  simp [hemp]

theorem extract_single_cited (vtext child : String) (rest : List String) :
    extract_paper_metadata [⟨["Total citations"], [⟨vtext, child :: rest⟩]⟩] =
      .ok { emptyMetadata with
            total_citations_detailed := some ((citedBySearchAux child.data).getD 0) } := rfl

theorem subSafeAux_true_all_bad {l : List Char} (h : ∀ c ∈ l, isSafeChar c = false) :
    subSafeAux true l = [] := by
  induction l with
  | nil => rfl
  | cons c cs ih =>
    have hc := h c (by simp)
    simp [subSafeAux, hc, ih fun d hd => h d (by simp [hd])]

theorem download_pdf_ok_metadata (pd : PageData) (t : String) (y : Option Nat) (u : Bool)
    (md : Metadata) (hf : pd.fetchOk = true)
    (hx : extract_paper_metadata pd.rows = .ok md) :
    ∃ dl, download_pdf pd t y u = .ok dl ∧ dl.metadata = some md := by
  unfold download_pdf
  rw [hf, hx]
  simp only [Bool.not_true, Bool.false_eq_true, if_false]
  split
  · exact ⟨_, rfl, rfl⟩
  · exact ⟨_, rfl, rfl⟩
  · split
    · exact ⟨_, rfl, rfl⟩
    · split
      · exact ⟨_, rfl, rfl⟩
      · exact ⟨_, rfl, rfl⟩
    · split
      · exact ⟨_, rfl, rfl⟩
      · exact ⟨_, rfl, rfl⟩

theorem processItem_from_dl (u : Bool) (st : ScrapeState) (item : Item) (st2 : ScrapeState)
    (h : processItem u st item = .ok st2) :
    ∃ dl, download_pdf item.page item.title none u = .ok dl ∧
      st2 = processItemWith st item dl := by
  unfold processItem at h
  cases hdl : download_pdf item.page item.title none u with
  | error e => rw [hdl] at h; cases h
  | ok dl => rw [hdl] at h; cases h; exact ⟨dl, rfl, rfl⟩

theorem processItemWith_articles (st : ScrapeState) (item : Item) (dl : DlReturn) :
    (processItemWith st item dl).articlesFetched = st.articlesFetched + 1 := by
  unfold processItemWith
  simp only []
  repeat' split
  all_goals rfl

theorem processItemWith_dcount (st : ScrapeState) (item : Item) (dl : DlReturn) :
    (processItemWith st item dl).downloadedCount ≤ st.downloadedCount + 1 := by
  unfold processItemWith
  simp only []
  repeat' split
  all_goals simp

theorem processItemWith_dcount_invariant (st : ScrapeState) (item : Item) (dl : DlReturn) :
    (processItemWith st item dl).downloadedCount + dcount st.papersMetadata
      = st.downloadedCount + dcount (processItemWith st item dl).papersMetadata := by
  unfold processItemWith
  simp only []
  repeat' split
  all_goals
    simp [dcount, List.countP_append, List.countP_cons,
      (by decide : (("already_exists" == "downloaded") : Bool) = false),
      (by decide : (("downloaded" == "downloaded") : Bool) = true),
      (by decide : (("failed" == "downloaded") : Bool) = false)]
  all_goals omega

theorem processItemWith_appends_one (st : ScrapeState) (item : Item) (dl : DlReturn)
    (md : Metadata) (hmd : dl.metadata = some md) (hne : md ≠ emptyMetadata) :
    (processItemWith st item dl).papersMetadata.length = st.papersMetadata.length + 1 := by
  unfold processItemWith
  simp only [hmd]
  simp only [if_neg hne]
  repeat' split
  all_goals simp

theorem processItemWith_empty_md (st : ScrapeState) (item : Item) (dl : DlReturn)
    (hmd : dl.metadata = some emptyMetadata) :
    (processItemWith st item dl).papersMetadata = st.papersMetadata := by
  unfold processItemWith
  simp only [hmd]
  rfl

theorem scrapeLoop_unlimited (u : Bool) (m : Int) (hm : m ≤ 0) :
    ∀ (items : List Item) (st st2 : ScrapeState),
      scrapeLoop u m st items = .ok st2 →
      st2.articlesFetched = st.articlesFetched + items.length := by
  intro items
  induction items with
  | nil => intro st st2 h; cases h; simp
  | cons item rest ih =>
    intro st st2 h
    simp only [scrapeLoop] at h
    rw [if_neg (by intro hc; omega)] at h
    cases hdl : processItem u st item with
    | error e => rw [hdl] at h; cases h
    | ok stm =>
      rw [hdl] at h
      obtain ⟨dl, _, hst⟩ := processItem_from_dl u st item stm hdl
      have harts : stm.articlesFetched = st.articlesFetched + 1 := by
        rw [hst]; exact processItemWith_articles st item dl
      have hrec := ih stm st2 h
      rw [hrec, harts, List.length_cons]
      omega

theorem scrapeLoop_cap (u : Bool) (m : Int) (hm : 0 < m) :
    ∀ (items : List Item) (st st2 : ScrapeState),
      (st.downloadedCount : Int) ≤ m →
      scrapeLoop u m st items = .ok st2 →
      (st2.downloadedCount : Int) ≤ m := by
  intro items
  induction items with
  | nil => intro st st2 hle h; cases h; exact hle
  | cons item rest ih =>
    intro st st2 hle h
    simp only [scrapeLoop] at h
    by_cases hc : (st.downloadedCount : Int) ≥ m
    · rw [if_pos ⟨hm, hc⟩] at h; cases h; exact hle
    · rw [if_neg (fun hh => hc hh.2)] at h
      cases hdl : processItem u st item with
      | error e => rw [hdl] at h; cases h
      | ok stm =>
        rw [hdl] at h
        obtain ⟨dl, _, hst⟩ := processItem_from_dl u st item stm hdl
        have hd : stm.downloadedCount ≤ st.downloadedCount + 1 := by
          rw [hst]; exact processItemWith_dcount st item dl
        exact ih stm st2 (by omega) h

theorem scrapeLoop_stop (u : Bool) (m : Int) (st : ScrapeState) (item : Item)
    (rest : List Item) (hm : 0 < m) (hge : (st.downloadedCount : Int) ≥ m) :
    scrapeLoop u m st (item :: rest) = .ok st := by
  simp only [scrapeLoop]
  rw [if_pos ⟨hm, hge⟩]

theorem scrapeLoop_dcount_invariant (u : Bool) (m : Int) :
    ∀ (items : List Item) (st st2 : ScrapeState),
      scrapeLoop u m st items = .ok st2 →
      st2.downloadedCount + dcount st.papersMetadata
        = st.downloadedCount + dcount st2.papersMetadata := by
  intro items
  induction items with
  | nil => intro st st2 h; cases h; rfl
  | cons item rest ih =>
    intro st st2 h
    simp only [scrapeLoop] at h
    by_cases hc : m > 0 ∧ (st.downloadedCount : Int) ≥ m
    · rw [if_pos hc] at h; cases h; rfl
    · rw [if_neg hc] at h
      cases hdl : processItem u st item with
      | error e => rw [hdl] at h; cases h
      | ok stm =>
        rw [hdl] at h
        obtain ⟨dl, _, hst⟩ := processItem_from_dl u st item stm hdl
        have h1 : stm.downloadedCount + dcount st.papersMetadata
            = st.downloadedCount + dcount stm.papersMetadata := by
          rw [hst]; exact processItemWith_dcount_invariant st item dl
        have h2 := ih stm st2 h
        omega

/-! ## Claim theorems -/

/-- Claim C1: the claim states that for an author with 0 publications the
paginator terminates and returns an empty sequence.  The code instead never
terminates: with every page empty, `results` stays empty, the short-circuited
break condition is never true, and the loop keeps requesting offsets forever —
for every fuel bound the loop is still running (`none`). -/
theorem fetch_and_parse_zero_publications_diverges :
    ∀ fuel : Nat, fetch_and_parse (fun _ => []) fuel = none := by
  have aux : ∀ (fuel pag : Nat), fetchLoop (fun _ => []) fuel [] pag = none := by
    intro fuel
    induction fuel with
    | zero => intro pag; rfl
    | succ n ih => intro pag; simpa [fetchLoop] using ih (pag + 100)
  intro fuel
  exact aux fuel 0

/-- Claim C2: the claim states that a publication whose derived filename is
already in the folder is recorded `already_exists` with no artifact fetch and
no file write.  The code does record `already_exists`, but the download call
runs before the existence check: the PDF is fetched (`pdfFetches = 1`) and a
file is written (`written = ["Foo.pdf"]`, the year-less name, since the call
passes `year=None`). -/
theorem rerun_with_existing_file_still_fetches_and_writes :
    scrape_author_papers ["Foo_2020_.pdf"] [itemFoo] false (-1) =
      .ok { downloadedPapers := ["Foo_2020_.pdf"]
            papersMetadata := [recordFoo "already_exists"]
            downloadedCount := 0, skippedCount := 1
            written := ["Foo.pdf"], pdfFetches := 1, articlesFetched := 1 } ∧
    ["Foo.pdf"] ≠ ([] : List String) := by
  exact ⟨by decide, by decide⟩

/-- Claim C3 counterexample: a profile link without a `user` query parameter
makes `get_author_id` return the empty string silently — no error is raised,
refuting "never silently returns an empty string". -/
theorem get_author_id_missing_user_returns_empty_silently :
    get_author_id_from_link "https://scholar.google.com/citations?hl=en&view_op=list_works"
      = "" := by
  decide

/-- Claim C3 (amended): with a profile link, `get_author_id` returns the value
of the link's first `user` query parameter; when the `user` parameter is
absent, or present with an empty value, it silently returns `""` instead of
failing. -/
theorem get_author_id_link_user_extraction :
    (∀ u : String, u.data ≠ [] →
      (∀ c ∈ u.data, c ≠ '&' ∧ c ≠ '=' ∧ c ≠ '#' ∧ c ≠ '?' ∧ c ≠ '%' ∧ c ≠ '+') →
      get_author_id_from_link ("https://scholar.google.com/citations?user=" ++ u) = u) ∧
    get_author_id_from_link "https://scholar.google.com/citations?hl=en" = "" ∧
    get_author_id_from_link "https://scholar.google.com/citations?user=&hl=en" = "" := by
  refine ⟨?_, by decide, by decide⟩
  intro u hne hch
  rw [get_author_id_from_link,
      query_of_user_link u (fun c hc => ((hch c hc).2.2.1)),
      parse_qsl_user u hne (fun c hc => ⟨(hch c hc).1, (hch c hc).2.1⟩)]
  cases u
  rfl

/-- Claim C3 witness: the general part of the amended claim applied to the
author id `"AbC123"`. -/
theorem get_author_id_link_user_extraction_witness :
    "AbC123".data ≠ [] ∧
    get_author_id_from_link "https://scholar.google.com/citations?user=AbC123" = "AbC123" := by
  refine ⟨by decide, ?_⟩
  have h := get_author_id_link_user_extraction.1 "AbC123" (by decide) (by decide)
  rw [show ("https://scholar.google.com/citations?user=" ++ "AbC123" : String)
      = "https://scholar.google.com/citations?user=AbC123" from by decide] at h
  exact h

/-- Claim C4 counterexample: a detail page that fetches successfully but whose
metadata table yields zero recognized fields produces the empty-but-non-null
dict, yet `if not metadata: continue` treats the empty dict as falsy and skips
the publication — no `PaperRecord` is appended, refuting the claim. -/
theorem empty_metadata_publication_appends_no_record :
    itemEmptyMeta.page.fetchOk = true ∧
    extract_paper_metadata itemEmptyMeta.page.rows = .ok emptyMetadata ∧
    scrape_author_papers [] [itemEmptyMeta] false (-1) =
      .ok { downloadedPapers := [], papersMetadata := []
            downloadedCount := 0, skippedCount := 0
            written := [], pdfFetches := 0, articlesFetched := 1 } := by
  exact ⟨rfl, by decide, by decide⟩

/-- Claim C4 (amended): for a publication whose detail page fetch succeeds,
exactly one `PaperRecord` is appended iff the extracted metadata has at least
one recognized field; when extraction returns the empty metadata object the
item is skipped exactly like a failed page fetch (the code's `if not metadata`
conflates the empty dict with `None`). -/
theorem paper_record_appended_iff_nonempty_metadata
    (u : Bool) (st : ScrapeState) (item : Item) (md : Metadata)
    (hf : item.page.fetchOk = true)
    (hx : extract_paper_metadata item.page.rows = .ok md) :
    (md ≠ emptyMetadata →
      ∃ st2, processItem u st item = .ok st2 ∧
        st2.papersMetadata.length = st.papersMetadata.length + 1) ∧
    (md = emptyMetadata →
      ∃ st2, processItem u st item = .ok st2 ∧
        st2.papersMetadata = st.papersMetadata) := by
  obtain ⟨dl, hdl, hmd⟩ := download_pdf_ok_metadata item.page item.title none u md hf hx
  have hpi : processItem u st item = .ok (processItemWith st item dl) := by
    unfold processItem
    rw [hdl]
  constructor
  · intro hne
    exact ⟨_, hpi, processItemWith_appends_one st item dl md hmd hne⟩
  · intro he
    exact ⟨_, hpi, processItemWith_empty_md st item dl (he ▸ hmd)⟩

/-- Claim C4 witness: one record appended for a page with a recognized
`Authors` field; none for a page with an empty metadata table. -/
theorem paper_record_appended_iff_nonempty_metadata_witness :
    (∃ st2, processItem false (initState []) itemAuthors = .ok st2 ∧
      st2.papersMetadata.length = (initState []).papersMetadata.length + 1) ∧
    (∃ st2, processItem false (initState []) itemEmptyMeta = .ok st2 ∧
      st2.papersMetadata = (initState []).papersMetadata) := by
  constructor
  · exact (paper_record_appended_iff_nonempty_metadata false (initState []) itemAuthors
      mdAuthors rfl (by decide)).1 (by decide)
  · exact (paper_record_appended_iff_nonempty_metadata false (initState []) itemEmptyMeta
      emptyMetadata rfl (by decide)).2 rfl

/-- Claim C5: the claim states that a successful download with a known year is
saved under `sanitize(title + "(" + year + ")") + ".pdf"`, equal to the
record's `pdf_filename`.  The code saves the artifact as `sanitize(title).pdf`
— the orchestrator passes `year=None` to the downloader — while the record's
`pdf_filename` is the year-bearing name; the two never agree when the year is
known.  Here the file written is `Foo.pdf` but the record says
`Foo_2020_.pdf`. -/
theorem saved_pdf_name_differs_from_recorded_pdf_filename :
    scrape_author_papers [] [itemFoo] false (-1) = .ok stFooDl ∧
    stFooDl.written = ["Foo.pdf"] ∧
    (recordFoo "downloaded").pdf_filename = "Foo_2020_.pdf" ∧
    "Foo.pdf" ≠ "Foo_2020_.pdf" := by
  exact ⟨by decide, rfl, rfl, by decide⟩

/-- Claim C6: when the next fetched page's last stub equals the last
accumulated stub (the site returned the tail again), the paginator stops
without appending and returns exactly the accumulated 100 stubs. -/
theorem pagination_stops_on_repeated_tail (pages : Nat → List Stub) (fuel : Nat)
    (hlen : (pages 0).length = 100)
    (htail : (pages 100).getLast? = (pages 0).getLast?) :
    fetch_and_parse pages (fuel + 2) = some (.ok (pages 0)) := by
  have hne : pages 0 ≠ [] := by
    intro h
    rw [h] at hlen
    simp at hlen
  obtain ⟨rl, hrl⟩ := Option.isSome_iff_exists.mp (List.getLast?_isSome.mpr hne)
  unfold fetch_and_parse
  rw [show fuel + 2 = (fuel + 1) + 1 from rfl, fetchLoop_succ]
  simp only [List.getLast?_nil, List.nil_append]
  rw [fetchLoop_succ, hrl, htail, hrl]
  simp

/-- Claim C6 witness: a concrete oracle with 100 stubs on the first page and a
repeated tail on the second returns exactly the 100 stubs. -/
theorem pagination_stops_on_repeated_tail_witness :
    (pagesRepeatTail 0).length = 100 ∧
    fetch_and_parse pagesRepeatTail 2 = some (.ok (pagesRepeatTail 0)) := by
  constructor
  · decide
  · exact pagination_stops_on_repeated_tail pagesRepeatTail 0 (by decide) (by decide)

/-- Claim C7 counterexample: a `Total citations` row whose value cell has no
nested element makes extraction raise `IndexError` (`getchildren()[0]` on an
empty list), refuting "extraction never raises on any shape of that row". -/
theorem total_citations_childless_value_cell_raises :
    extract_paper_metadata [⟨["Total citations"], [⟨"Cited by 42", []⟩]⟩] =
      .error .indexError := by
  decide

/-- Claim C7 (amended): for a `Total citations` row whose value cell has a
nested element, extraction returns `N` when the nested element's text matches
`Cited by <N>` and `0` when the pattern does not match; when the value cell
has no nested element, extraction raises `IndexError`. -/
theorem total_citations_extraction_behaviour :
    (∀ (ds : List Char) (vtext : String) (rest : List String),
      ds ≠ [] → (∀ c ∈ ds, c.isDigit = true) →
      extract_paper_metadata
          [⟨["Total citations"], [⟨vtext, String.mk (citedByPattern ++ ds) :: rest⟩]⟩]
        = .ok { emptyMetadata with total_citations_detailed := some (natOfDigits ds) }) ∧
    (∀ (txt vtext : String) (rest : List String),
      citedBySearchAux txt.data = none →
      extract_paper_metadata [⟨["Total citations"], [⟨vtext, txt :: rest⟩]⟩]
        = .ok { emptyMetadata with total_citations_detailed := some 0 }) ∧
    (∀ vtext : String,
      extract_paper_metadata [⟨["Total citations"], [⟨vtext, []⟩]⟩] = .error .indexError) := by
  refine ⟨?_, ?_, fun vtext => rfl⟩
  · intro ds vtext rest hne hdig
    rw [extract_single_cited]
    rw [show (String.mk (citedByPattern ++ ds)).data = citedByPattern ++ ds from rfl]
    rw [citedBy_found ds hne hdig]
    rfl
  · intro txt vtext rest hnone
    rw [extract_single_cited, hnone]
    rfl

/-- Claim C7 witness: `Cited by 42` yields 42; a non-matching text yields 0. -/
theorem total_citations_extraction_behaviour_witness :
    (['4', '2'] ≠ ([] : List Char)) ∧
    extract_paper_metadata
        [⟨["Total citations"], [⟨"", [String.mk (citedByPattern ++ ['4', '2'])]⟩]⟩]
      = .ok { emptyMetadata with total_citations_detailed := some 42 } ∧
    extract_paper_metadata [⟨["Total citations"], [⟨"", ["no match here"]⟩]⟩]
      = .ok { emptyMetadata with total_citations_detailed := some 0 } := by
  refine ⟨by decide, ?_, ?_⟩
  · have h := total_citations_extraction_behaviour.1 ['4', '2'] "" [] (by decide) (by decide)
    rw [h]
    rfl
  · exact total_citations_extraction_behaviour.2.1 "no match here" "" [] (by decide)

/-- Claim C8 counterexample: with two candidates where the first matches
`"pdf"` in its text but carries no `href`, the code does not use that first
matching candidate — it falls through to the last candidate's href
(`if not pdf_href: pdf_href = pdf_anchors[-1].get("href")`), refuting "the
first whose visible text contains pdf is chosen" as an unconditional rule. -/
theorem pdf_selection_bypasses_first_match_without_href :
    anchorMatchesPdf ⟨"Download PDF", none⟩ = true ∧
    anchorMatchesPdf ⟨"mirror", some "u2"⟩ = false ∧
    (⟨"Download PDF", none⟩ : Anchor).href = none ∧
    selectPdf [⟨"Download PDF", none⟩, ⟨"mirror", some "u2"⟩] = .chosen "u2" := by
  exact ⟨by decide, by decide, rfl, by decide⟩

/-- Claim C8 (amended): zero candidates yield no artifact without raising;
one candidate is used directly; with several candidates the first whose text
contains `"pdf"` (case-insensitively) is used provided its href is present and
non-empty, and otherwise — no text match, or the matching candidate's href
missing/empty — the last candidate's href is used. -/
theorem pdf_link_selection_policy :
    (selectPdf [] = .noAnchors) ∧
    (∀ a : Anchor, selectPdf [a] = hrefResult a.href) ∧
    (∀ (a b : Anchor) (rest : List Anchor) (am : Anchor) (s : String),
      firstPdfAnchor (a :: b :: rest) = some am → am.href = some s →
      pyStrTruthy s = true → selectPdf (a :: b :: rest) = .chosen s) ∧
    (∀ (a b : Anchor) (rest : List Anchor),
      firstPdfAnchor (a :: b :: rest) = none →
      selectPdf (a :: b :: rest) = hrefResult (lastAnchorHref (a :: b :: rest))) := by
  refine ⟨rfl, fun a => rfl, ?_, ?_⟩
  · intro a b rest am s hfirst hhref htr
    simp only [selectPdf, hfirst, Option.bind, hhref, optTruthy, htr, if_pos]
    simp [hrefResult, htr]
  · intro a b rest hfirst
    simp only [selectPdf, hfirst, Option.bind, optTruthy]
    rfl

/-- Claim C8 witness: the specification's own example — of two candidates only
the second has text "Download PDF", and the second is selected; and zero
candidates yield no artifact. -/
theorem pdf_link_selection_policy_witness :
    selectPdf [⟨"x", some "u1"⟩, ⟨"Download PDF", some "u2"⟩] = .chosen "u2" ∧
    selectPdf [] = .noAnchors := by
  constructor
  · exact pdf_link_selection_policy.2.2.1 ⟨"x", some "u1"⟩ ⟨"Download PDF", some "u2"⟩ []
      ⟨"Download PDF", some "u2"⟩ "u2" (by decide) rfl (by decide)
  · exact pdf_link_selection_policy.1

/-- Claim C9 counterexample: `"###"` is non-empty and made only of characters
outside the safe class, yet the sanitizer returns `"_"` — the single
underscore the regex substitutes for the whole run, which is itself a safe
character that `strip()` does not remove — not the default `"paper"`. -/
theorem sanitize_all_invalid_not_default :
    "###".data ≠ [] ∧
    (∀ c ∈ "###".data, isSafeChar c = false) ∧
    safe_filename "###" = "_" ∧
    safe_filename "###" ≠ "paper" := by
  exact ⟨by decide, by decide, by decide, by decide⟩

/-- Claim C9 (amended): for every non-empty string composed entirely of
characters outside `[A-Za-z0-9\-\._ ]`, the sanitizer returns `"_"` (the
whole string is one maximal invalid run, replaced by a single underscore; the
underscore is safe and non-blank, so the default is not reached). -/
theorem sanitize_all_invalid_yields_underscore (s : String)
    (hne : s.data ≠ []) (hbad : ∀ c ∈ s.data, isSafeChar c = false) :
    safe_filename s = "_" := by
  obtain ⟨l⟩ := s
  match l, hne with
  | c :: cs, _ =>
    have hc : isSafeChar c = false := hbad c (by simp)
    have hcs : subSafeAux true cs = [] :=
      subSafeAux_true_all_bad fun d hd => hbad d (by simp [hd])
    simp only [safe_filename]
    have hsub : subSafeAux false (c :: cs) = ['_'] := by
      simp [subSafeAux, hc, hcs]
    rw [hsub]
    rfl

/-- Claim C9 witness: the amended claim applied to `"@@@@"`. -/
theorem sanitize_all_invalid_yields_underscore_witness :
    "@@@@".data ≠ [] ∧
    (∀ c ∈ "@@@@".data, isSafeChar c = false) ∧
    safe_filename "@@@@" = "_" :=
  ⟨by decide, by decide,
    sanitize_all_invalid_yields_underscore "@@@@" (by decide) (by decide)⟩

/-- Claim C10: the cap is enforced only for strictly positive `max_papers`:
(1) `max_papers ≤ 0` (so also 0) processes every listed publication;
(2) with `0 < max_papers` the downloaded count never exceeds the cap;
(3) once the downloaded count has reached the cap the loop stops immediately,
processing no further item;
(4) the count the guard compares is exactly the number of records classified
`downloaded` (not `already_exists` or `failed`). -/
theorem max_papers_cap_semantics :
    (∀ (u : Bool) (m : Int) (items : List Item) (st st2 : ScrapeState),
      m ≤ 0 → scrapeLoop u m st items = .ok st2 →
      st2.articlesFetched = st.articlesFetched + items.length) ∧
    (∀ (u : Bool) (m : Int) (items : List Item) (st st2 : ScrapeState),
      0 < m → (st.downloadedCount : Int) ≤ m → scrapeLoop u m st items = .ok st2 →
      (st2.downloadedCount : Int) ≤ m) ∧
    (∀ (u : Bool) (m : Int) (st : ScrapeState) (item : Item) (rest : List Item),
      0 < m → (st.downloadedCount : Int) ≥ m →
      scrapeLoop u m st (item :: rest) = .ok st) ∧
    (∀ (u : Bool) (m : Int) (items : List Item) (eps : List String) (st2 : ScrapeState),
      scrape_author_papers eps items u m = .ok st2 →
      st2.downloadedCount = dcount st2.papersMetadata) := by
  refine ⟨fun u m items st st2 hm h => scrapeLoop_unlimited u m hm items st st2 h,
    fun u m items st st2 hm hle h => scrapeLoop_cap u m hm items st st2 hle h,
    fun u m st item rest hm hge => scrapeLoop_stop u m st item rest hm hge,
    fun u m items eps st2 h => ?_⟩
  have hinv := scrapeLoop_dcount_invariant u m items (initState eps) st2 h
  simp only [initState, dcount, List.countP_nil] at hinv
  simp only [dcount]
  omega

/-- Claim C10 witness: the four parts applied to a concrete one-item run —
unlimited processing at `max_papers = -1`, the cap respected at
`max_papers = 1`, the immediate stop once the count reached 1, and the
downloaded count equal to the number of `downloaded` records. -/
theorem max_papers_cap_semantics_witness :
    (scrapeLoop false (-1) (initState []) [itemFoo] = .ok stFooDl ∧
      stFooDl.articlesFetched = (initState []).articlesFetched + 1) ∧
    ((stFooDl.downloadedCount : Int) ≤ 1) ∧
    (scrapeLoop false 1 stFooDl [itemFoo] = .ok stFooDl) ∧
    stFooDl.downloadedCount = dcount stFooDl.papersMetadata := by
  have h1 : scrapeLoop false (-1) (initState []) [itemFoo] = .ok stFooDl := by decide
  have h2 : scrapeLoop false 1 (initState []) [itemFoo] = .ok stFooDl := by decide
  refine ⟨⟨h1, ?_⟩, ?_, ?_, ?_⟩
  · exact max_papers_cap_semantics.1 false (-1) [itemFoo] (initState []) stFooDl
      (by norm_num) h1
  · exact max_papers_cap_semantics.2.1 false 1 [itemFoo] (initState []) stFooDl
      (by norm_num) (by decide) h2
  · exact max_papers_cap_semantics.2.2.1 false 1 stFooDl itemFoo [] (by norm_num) (by decide)
  · exact max_papers_cap_semantics.2.2.2 false 1 [itemFoo] [] stFooDl h2

end GScholar
